import Mathlib

/-
Verification of the reorganization engine of ai-file-organizer.

Shallow embedding of src/folder_reorganizer.py, src/file_analyzer.py and
src/file_processor.py.  File paths are strings with components separated by
the slash character; file contents are abstracted to natural-number
identifiers; the in-memory filesystem is an association list from path to
content.  Fallible filesystem operations return Except; a Python exception
that propagates out of a method is modelled by an error value that carries
the mutated object state at the moment the exception was raised, matching
the fact that Python exceptions do not undo prior attribute mutations.
Floating scores of the analyzer are modelled by rational numbers.
-/

set_option autoImplicit false

namespace AiFileOrganizer

/-- Last path component, as pathlib PurePath.name: the part after the final
slash. -/
def fileName (p : String) : String :=
  String.mk ((p.toList.reverse.takeWhile (fun c => c != '/')).reverse)

/-- The pathlib suffix of a file name: the substring from the last dot on,
provided that dot is neither the first nor the last character of the name;
otherwise the empty string.  Mirrors CPython PurePath.suffix. -/
def pySuffix (name : String) : String :=
  let cs := name.toList
  match (cs.enum.filter (fun q => q.2 = '.')).getLast? with
  | none => ""
  | some q => if 0 < q.1 && q.1 + 1 < cs.length then String.mk (cs.drop q.1) else ""

/-- The expression file_path.suffix[1:] used by the categorizer: the
extension without its leading dot, empty when there is no suffix. -/
def extNoDot (p : String) : String :=
  String.mk ((pySuffix (fileName p)).toList.drop 1)

/-- One entry of the hierarchy_rules list of the configuration.  The
extensions key is optional, as is the category key (the code reads it with
rule.get, defaulting to Uncategorized). -/
structure Rule where
  extensions : Option (List String)
  category : Option String
deriving Repr, DecidableEq

/-- FolderReorganizer._check_rule_conditions: returns false when the rule
has an extensions key and the extension of the file is not in it; in every
other case returns true. -/
def check_rule_conditions (file_path : String) (rule : Rule) : Bool :=
  match rule.extensions with
  | some exts => exts.contains (extNoDot file_path)
  | none => true

/-- FolderReorganizer._categorize_file: walk hierarchy_rules in order,
return the category of the first rule whose conditions hold (defaulting to
Uncategorized when the matching rule has no category key), and
Uncategorized when no rule matches. -/
def categorize_file (rules : List Rule) (file_path : String) : String :=
  match rules with
  | [] => "Uncategorized"
  | r :: rest =>
    if check_rule_conditions file_path r then r.category.getD "Uncategorized"
    else categorize_file rest file_path

/-- One step of the grouping loop of generate_folder_hierarchy: if the
category is already a key of the plan, append the file to its list,
otherwise add the category at the end with a singleton list.  This is
exactly the effect of the two-line dict idiom in the source under Python
dict insertion-order semantics. -/
def addToPlan (plan : List (String × List String)) (category file_path : String) :
    List (String × List String) :=
  if plan.any (fun q => q.1 == category) then
    plan.map (fun q => if q.1 == category then (q.1, q.2 ++ [file_path]) else q)
  else plan ++ [(category, [file_path])]

/-- FolderReorganizer.generate_folder_hierarchy: the directory scan is
abstracted to the list of file paths that rglob yields, in order; each file
is categorized and appended to its category list. -/
def generate_folder_hierarchy (rules : List Rule) (files : List String) :
    List (String × List String) :=
  files.foldl (fun plan f => addToPlan plan (categorize_file rules f) f) []

/-- Python dict assignment d[k] = v on an association list with string
keys: replace the value in place when the key is present, append at the
end otherwise (dict insertion-order semantics). -/
def dictSet {B : Type} (d : List (String × B)) (k : String) (v : B) :
    List (String × B) :=
  if d.any (fun q => q.1 == k) then
    d.map (fun q => if q.1 == k then (k, v) else q)
  else d ++ [(k, v)]

/-- In-memory filesystem: association list from file path to an abstract
content identifier.  Directories are tracked separately in RState. -/
abbrev FS := List (String × Nat)

/-- shutil.move as used on single files: fails (FileNotFoundError) when the
source path does not exist, otherwise removes the source entry and writes
the content at the destination, silently replacing any file already
there. -/
def shutil_move (fs : FS) (src dst : String) : Except String FS :=
  match fs.lookup src with
  | none => Except.error ("FileNotFoundError: " ++ src)
  | some c => Except.ok (dictSet (fs.filter (fun q => q.1 != src)) dst c)

/-- Path join with a slash, as the / operator of pathlib on our abstract
paths. -/
def joinP (a b : String) : String := a ++ "/" ++ b

/-- Observable state of a FolderReorganizer together with the filesystem it
acts on: the files, the set of directories that exist, the _previous_state
ledger (a dict from key path to recorded value path) and the messages
printed so far. -/
structure RState where
  fs : FS
  dirs : List String
  previous_state : List (String × String)
  msgs : List String
deriving Repr, DecidableEq

/-- pathlib mkdir with parents and exist_ok: record the directory if it is
not already present. -/
def mkdirP (dirs : List String) (d : String) : List String :=
  if dirs.contains d then dirs else dirs ++ [d]

/-- Inner loop of apply_reorganization over the files of one category: the
ledger entry previous_state[file_path] = file_path is written BEFORE the
move is attempted (and records the original path on both sides, never the
destination); a move failure propagates as an exception carrying the state
mutated so far. -/
def move_files (base category : String) :
    List String → RState → Except (String × RState) RState
  | [], st => Except.ok st
  | f :: rest, st =>
    let st1 : RState := { st with previous_state := dictSet st.previous_state f f }
    match shutil_move st1.fs f (joinP (joinP base category) (fileName f)) with
    | Except.error e => Except.error (e, st1)
    | Except.ok fs1 => move_files base category rest { st1 with fs := fs1 }

/-- Outer loop of apply_reorganization over the categories of the plan:
create the category directory, then move the files of the category. -/
def apply_categories (base : String) :
    List (String × List String) → RState → Except (String × RState) RState
  | [], st => Except.ok st
  | (category, files) :: rest, st =>
    match move_files base category files
        { st with dirs := mkdirP st.dirs (joinP base category) } with
    | Except.error e => Except.error e
    | Except.ok st1 => apply_categories base rest st1

/-- FolderReorganizer.apply_reorganization: clears the ledger, then for
each category creates the directory and moves every file of that category
to base/category/name.  An uncaught OSError from any move aborts the whole
method. -/
def apply_reorganization (plan : List (String × List String)) (base : String)
    (st : RState) : Except (String × RState) RState :=
  apply_categories base plan { st with previous_state := [] }

/-- Loop of rollback over the ledger: moves each recorded current path back
to its original path; a failure propagates as an exception. -/
def restore_files :
    List (String × String) → RState → Except (String × RState) RState
  | [], st => Except.ok st
  | (original, current) :: rest, st =>
    match shutil_move st.fs current original with
    | Except.error e => Except.error (e, st)
    | Except.ok fs1 => restore_files rest { st with fs := fs1 }

/-- Whether d is a direct child entry of base, that is base/name with a
slash-free name.  Models what base_output_dir.iterdir() yields among the
tracked directories. -/
def isChildDir (base d : String) : Bool :=
  (base ++ "/").isPrefixOf d && !((d.drop (base.length + 1)).contains '/')

/-- Whether the directory d is empty in the state: no file lies under it
and no other tracked directory lies under it. -/
def dirIsEmpty (st : RState) (d : String) : Bool :=
  !(st.fs.any (fun q => (d ++ "/").isPrefixOf q.1)) &&
  !(st.dirs.any (fun e => e != d && (d ++ "/").isPrefixOf e))

/-- Final loop of rollback: for each direct child directory of base that is
empty, rmdir it. -/
def remove_empty_dirs (base : String) (st : RState) : RState :=
  { st with dirs := st.dirs.filter (fun d => !(isChildDir base d && dirIsEmpty st d)) }

/-- FolderReorganizer.rollback: on an empty ledger, print the no-previous-
state message and return without touching the filesystem; otherwise move
every ledger entry back, clear the ledger, and remove the empty direct
child directories of base_output_dir. -/
def rollback (base : String) (st : RState) : Except (String × RState) RState :=
  if st.previous_state.isEmpty then
    Except.ok { st with msgs := st.msgs ++ ["No previous state to rollback."] }
  else
    match restore_files st.previous_state st with
    | Except.error e => Except.error e
    | Except.ok st1 =>
      Except.ok (remove_empty_dirs base { st1 with previous_state := [] })

/-- Result of os.stat on a file, restricted to the fields the analyzer
reads.  Timestamps are in whole seconds, st_ctime_ns in nanoseconds. -/
structure Stats where
  st_size : Nat
  st_ctime : Nat
  st_mtime : Nat
  st_ctime_ns : Nat
deriving Repr, DecidableEq

/-- The metadata dict built by extract_metadata on success. -/
structure FileMeta where
  name : String
  extension : String
  size : Nat
  created : Nat
  modified : Nat
  year : Nat
deriving Repr, DecidableEq

/-- FileAnalyzer.extract_metadata: the stat outcome is passed in as an
Except value (the stat call is the only fallible step).  On success the
metadata dict is built; the year field divides the creation time in
seconds (st_ctime_ns floor-divided by ten to the ninth, stat being called
a second time in the source with the same result) by the fixed constant
31536000 and offsets by 1970.  On any exception the method catches it,
prints the error, and returns the empty dict, modelled as none: it never
raises. -/
def extract_metadata (file_path : String) (statResult : Except String Stats) :
    Option FileMeta :=
  match statResult with
  | Except.error _ => none
  | Except.ok st =>
    some { name := fileName file_path
           extension := pySuffix (fileName file_path)
           size := st.st_size
           created := st.st_ctime
           modified := st.st_mtime
           year := st.st_ctime_ns / 10 ^ 9 / 31536000 + 1970 }

/-- One element of the analysis_results list of process_files, restricted
to the fields the claims mention: the path and the metadata dict. -/
structure AnalysisEntry where
  path : String
  metadata : Option FileMeta
deriving Repr, DecidableEq

/-- FileAnalyzer.analyze_file, restricted to the metadata portion: builds
the result dict for one file; extract_metadata never raises, so neither
does this step. -/
def analyze_file (file_path : String) (statResult : Except String Stats) :
    AnalysisEntry :=
  { path := file_path, metadata := extract_metadata file_path statResult }

/-- process_files of file_processor.py: the directory scan is abstracted to
the list of regular files rglob yields, each paired with the outcome of its
stat call.  Every file produces exactly one entry in analysis_results; no
entry is skipped and no failure aborts the loop, because analyze_file
cannot raise through the metadata path. -/
def process_files (files : List (String × Except String Stats)) :
    List AnalysisEntry :=
  files.map (fun q => analyze_file q.1 q.2)

/-- The classifications dict of classify_file_purpose, built by
dict(zip(labels, scores)) from the zero-shot result, read back with
get(category, 0). -/
def zsScore (zero_shot : List (String × ℚ)) (c : String) : ℚ :=
  ((zero_shot.foldl (fun d q => dictSet d q.1 q.2) []).lookup c).getD 0

/-- The weighted combination of the two signals for one category, as
computed in the source: 0.7 times the zero-shot score plus 0.3 times the
semantic-similarity score. -/
def combinedScore (zero_shot : List (String × ℚ)) (semantic : String → ℚ)
    (c : String) : ℚ :=
  7 / 10 * zsScore zero_shot c + 3 / 10 * semantic c

/-- The final loop of classify_file_purpose over purpose_categories,
carrying the final_scores dict: a category is written into the dict exactly
when its combined score reaches the confidence threshold. -/
def classify_loop (zero_shot : List (String × ℚ)) (semantic : String → ℚ)
    (confidence_threshold : ℚ) :
    List String → List (String × ℚ) → List (String × ℚ)
  | [], final_scores => final_scores
  | c :: rest, final_scores =>
    let score := combinedScore zero_shot semantic c
    classify_loop zero_shot semantic confidence_threshold rest
      (if confidence_threshold ≤ score then dictSet final_scores c score
       else final_scores)

/-- FileAnalyzer.classify_file_purpose on the success path: the two
external model calls are abstracted to their outputs (the zero-shot
label-to-score pairs and the per-category semantic similarity), and the
method returns the dict of categories whose weighted combined score is at
or above the confidence threshold (default 0.5 in the source). -/
def classify_file_purpose (purpose_categories : List String)
    (zero_shot : List (String × ℚ)) (semantic : String → ℚ)
    (confidence_threshold : ℚ) : List (String × ℚ) :=
  classify_loop zero_shot semantic confidence_threshold purpose_categories []

/-! Helper lemmas about the categorizer and the plan builder. -/

lemma categorize_eq_find (rules : List Rule) (f : String) :
    categorize_file rules f =
      match rules.find? (check_rule_conditions f) with
      | some r => r.category.getD "Uncategorized"
      | none => "Uncategorized" := by
  induction rules with
  | nil => rfl
  | cons r rest ih =>
    by_cases h : check_rule_conditions f r
    · simp [categorize_file, List.find?, h]
    · simp only [Bool.not_eq_true] at h
      simp [categorize_file, List.find?, h, ih]

lemma categorize_append_of_no_match (pre rest : List Rule) (f : String)
    (h : ∀ r ∈ pre, check_rule_conditions f r = false) :
    categorize_file (pre ++ rest) f = categorize_file rest f := by
  induction pre with
  | nil => rfl
  | cons r pre0 ih =>
    have hr : check_rule_conditions f r = false := h r (List.mem_cons_self r pre0)
    simp only [List.cons_append, categorize_file, hr, Bool.false_eq_true, if_false]
    exact ih (fun r0 hr0 => h r0 (List.mem_cons_of_mem r hr0))

/-- Invariant of the plan under construction: every file listed under a
category is one the categorizer sends to that category. -/
def PlanInv (rules : List Rule) (plan : List (String × List String)) : Prop :=
  ∀ q ∈ plan, ∀ f ∈ q.2, categorize_file rules f = q.1

lemma addToPlan_inv (rules : List Rule) (plan : List (String × List String))
    (f : String) (h : PlanInv rules plan) :
    PlanInv rules (addToPlan plan (categorize_file rules f) f) := by
  intro q hq g hg
  unfold addToPlan at hq
  by_cases hmem : plan.any (fun q0 => q0.1 == categorize_file rules f)
  · rw [if_pos hmem] at hq
    obtain ⟨q0, hq0, hmap⟩ := List.mem_map.mp hq
    by_cases he : q0.1 == categorize_file rules f
    · rw [if_pos he] at hmap
      subst hmap
      rcases List.mem_append.mp hg with hgl | hgr
      · have := h q0 hq0 g hgl
        simpa [beq_iff_eq.mp he] using this
      · have : g = f := by simpa using hgr
        subst this
        exact (beq_iff_eq.mp he).symm
    · rw [if_neg he] at hmap
      subst hmap
      exact h q0 hq0 g hg
  · rw [if_neg hmem] at hq
    rcases List.mem_append.mp hq with hql | hqr
    · exact h q hql g hg
    · have hq1 : q = (categorize_file rules f, [f]) := by simpa using hqr
      subst hq1
      have : g = f := by simpa using hg
      subst this
      rfl

lemma generate_folder_hierarchy_inv (rules : List Rule) (files : List String) :
    PlanInv rules (generate_folder_hierarchy rules files) := by
  have main : ∀ (fs : List String) (plan : List (String × List String)),
      PlanInv rules plan →
      PlanInv rules (fs.foldl (fun pl f => addToPlan pl (categorize_file rules f) f) plan) := by
    intro fs
    induction fs with
    | nil => intro plan h; exact h
    | cons f fs0 ih =>
      intro plan h
      exact ih _ (addToPlan_inv rules plan f h)
  exact main files [] (fun q hq => absurd hq (List.not_mem_nil q))

/-! Theorems for the frozen claims about the categorizer and planner. -/

/-- Claim C5: categorization evaluates the hierarchy rules strictly in
configuration order; a rule matches exactly when each of its predicates
holds (the only predicate the code implements is membership of the dotless
extension in the rule extension list, and a rule with no extensions key has
no predicate to fail); the first matching rule yields its category
(defaulting to Uncategorized when the rule lacks a category key); with no
match the sentinel Uncategorized is returned; and when a file matches two
rules the one that appears first in the configuration decides. -/
theorem categorize_first_match_in_config_order (rules : List Rule) (f : String) :
    (categorize_file rules f =
      match rules.find? (check_rule_conditions f) with
      | some r => r.category.getD "Uncategorized"
      | none => "Uncategorized")
    ∧ (∀ r : Rule, check_rule_conditions f r = true ↔
        ∀ exts, r.extensions = some exts → extNoDot f ∈ exts)
    ∧ ((∀ r ∈ rules, check_rule_conditions f r = false) →
        categorize_file rules f = "Uncategorized")
    ∧ (∀ (pre mid post : List Rule) (r1 r2 : Rule),
        rules = pre ++ r1 :: (mid ++ r2 :: post) →
        (∀ r ∈ pre, check_rule_conditions f r = false) →
        check_rule_conditions f r1 = true →
        categorize_file rules f = r1.category.getD "Uncategorized") := by
  refine ⟨categorize_eq_find rules f, ?_, ?_, ?_⟩
  · intro r
    cases hx : r.extensions with
    | none => simp [check_rule_conditions, hx]
    | some exts =>
      simp only [check_rule_conditions, hx]
      constructor
      · intro hc exts0 hx0
        cases hx0
        exact List.elem_iff.mp hc
      · intro hall
        exact List.elem_iff.mpr (hall exts rfl)
  · intro hall
    rw [categorize_eq_find rules f]
    have : rules.find? (check_rule_conditions f) = none :=
      List.find?_eq_none.mpr (fun r hr => by simp [hall r hr])
    rw [this]
  · intro pre mid post r1 r2 hru hpre h1
    subst hru
    rw [categorize_append_of_no_match pre _ f hpre]
    simp [categorize_file, h1]

/-- Witness for claim C5 at a concrete input: the file a/f.txt matches both
rules, and the category of the rule listed first is assigned. -/
theorem categorize_first_match_in_config_order_witness :
    categorize_file
      [⟨some ["txt"], some "Documents"⟩, ⟨some ["txt"], some "Other"⟩]
      "a/f.txt" = "Documents" :=
  (categorize_first_match_in_config_order
      [⟨some ["txt"], some "Documents"⟩, ⟨some ["txt"], some "Other"⟩]
      "a/f.txt").2.2.2 [] [] [] ⟨some ["txt"], some "Documents"⟩
    ⟨some ["txt"], some "Other"⟩ rfl
    (by intro r hr; exact absurd hr (List.not_mem_nil r)) (by decide)

/-- Claim C10: a configured rule with no extensions key matches every file,
so it acts as a catch-all: once the rules before it all fail, its category
is assigned and every rule after it is never reached. -/
theorem rule_without_extensions_is_catch_all (f : String) (r : Rule)
    (hr : r.extensions = none) :
    check_rule_conditions f r = true ∧
    ∀ (pre post : List Rule),
      (∀ r0 ∈ pre, check_rule_conditions f r0 = false) →
      categorize_file (pre ++ r :: post) f = r.category.getD "Uncategorized" := by
  have hc : check_rule_conditions f r = true := by
    simp [check_rule_conditions, hr]
  refine ⟨hc, ?_⟩
  intro pre post hpre
  rw [categorize_append_of_no_match pre _ f hpre]
  simp [categorize_file, hc]

/-- Witness for claim C10: the catch-all rule placed second absorbs the
file a/b.bin although the third rule also matches it. -/
theorem rule_without_extensions_is_catch_all_witness :
    categorize_file
      [⟨some ["txt"], some "Documents"⟩, ⟨none, some "CatchAll"⟩,
        ⟨some ["bin"], some "Binaries"⟩]
      "a/b.bin" = "CatchAll" :=
  (rule_without_extensions_is_catch_all "a/b.bin" ⟨none, some "CatchAll"⟩ rfl).2
    [⟨some ["txt"], some "Documents"⟩] [⟨some ["bin"], some "Binaries"⟩]
    (by decide)

/-- Claim C7: generate_folder_hierarchy is a deterministic pure function of
the rule list and the scanned file listing, so two runs over an unchanged
directory (same listing from rglob) with unchanged rules produce an
identical plan: the same categories in the same order, each with the same
ordered list of files. -/
theorem generate_folder_hierarchy_deterministic (rules : List Rule)
    (files1 files2 : List String) (h : files1 = files2) :
    generate_folder_hierarchy rules files1 = generate_folder_hierarchy rules files2
    ∧ (generate_folder_hierarchy rules files1).map Prod.fst
        = (generate_folder_hierarchy rules files2).map Prod.fst
    ∧ ∀ c, (generate_folder_hierarchy rules files1).lookup c
        = (generate_folder_hierarchy rules files2).lookup c := by
  subst h
  exact ⟨rfl, rfl, fun _ => rfl⟩

/-- Witness for claim C7 at a concrete listing and rule set. -/
theorem generate_folder_hierarchy_deterministic_witness :
    generate_folder_hierarchy [⟨some ["txt"], some "Documents"⟩]
        ["a/f.txt", "b/g.pdf", "c/h.txt"]
      = generate_folder_hierarchy [⟨some ["txt"], some "Documents"⟩]
        ["a/f.txt", "b/g.pdf", "c/h.txt"] :=
  (generate_folder_hierarchy_deterministic [⟨some ["txt"], some "Documents"⟩]
    ["a/f.txt", "b/g.pdf", "c/h.txt"] ["a/f.txt", "b/g.pdf", "c/h.txt"] rfl).1

/-- Claim C9: in a plan produced by generate_folder_hierarchy each file
belongs to at most one category: if a path appears in the lists of two
categories of the plan, those categories are equal, because every listed
file categorizes to the key it is listed under. -/
theorem plan_at_most_one_category (rules : List Rule) (files : List String)
    (c1 c2 : String) (l1 l2 : List String) (p : String)
    (h1 : (c1, l1) ∈ generate_folder_hierarchy rules files)
    (h2 : (c2, l2) ∈ generate_folder_hierarchy rules files)
    (hp1 : p ∈ l1) (hp2 : p ∈ l2) : c1 = c2 := by
  have i1 := generate_folder_hierarchy_inv rules files (c1, l1) h1 p hp1
  have i2 := generate_folder_hierarchy_inv rules files (c2, l2) h2 p hp2
  exact i1.symm.trans i2

/-- Witness for claim C9 at a concrete plan. -/
theorem plan_at_most_one_category_witness : "Documents" = "Documents" :=
  plan_at_most_one_category [⟨some ["txt"], some "Documents"⟩]
    ["a/f.txt", "b/g.txt"] "Documents" "Documents"
    ["a/f.txt", "b/g.txt"] ["a/f.txt", "b/g.txt"] "a/f.txt"
    (by decide) (by decide) (by decide) (by decide)

/-! Theorems for the claims about apply_reorganization and rollback. -/

/-- Claim C8: calling rollback with an empty ledger is a safe no-op: no
exception is raised, the files, the directories and the ledger are left
exactly as they were, and only the nothing-to-rollback message is
printed. -/
theorem rollback_empty_ledger_noop (base : String) (st : RState)
    (h : st.previous_state = []) :
    rollback base st =
      Except.ok { st with msgs := st.msgs ++ ["No previous state to rollback."] } := by
  unfold rollback
  rw [h]
  rfl

/-- Witness for claim C8 at a concrete state with a file and a directory:
nothing moves, nothing is removed, the message is emitted. -/
theorem rollback_empty_ledger_noop_witness :
    rollback "out" ⟨[("f", 1)], ["out/Docs"], [], []⟩ =
      Except.ok ⟨[("f", 1)], ["out/Docs"], [], ["No previous state to rollback."]⟩ :=
  rollback_empty_ledger_noop "out" ⟨[("f", 1)], ["out/Docs"], [], []⟩ rfl

/-- Claim C1 is refuted by the code: apply_reorganization stores the
ORIGINAL path on both sides of each ledger entry (line 214 of
folder_reorganizer.py assigns previous_state of file_path to file_path, not
to the destination), so after a successful apply of the one-file plan
mapping Docs to src/a.txt, rollback attempts to move src/a.txt onto itself,
a path that no longer exists, raises FileNotFoundError, and restores
nothing: the moved file is still at out/Docs/a.txt and absent from its
original path when rollback fails. -/
theorem rollback_after_apply_fails_to_restore :
    apply_reorganization [("Docs", ["src/a.txt"])] "out"
        ⟨[("src/a.txt", 0)], [], [], []⟩ =
      Except.ok ⟨[("out/Docs/a.txt", 0)], ["out/Docs"],
        [("src/a.txt", "src/a.txt")], []⟩
    ∧ rollback "out"
        ⟨[("out/Docs/a.txt", 0)], ["out/Docs"], [("src/a.txt", "src/a.txt")], []⟩ =
      Except.error ("FileNotFoundError: src/a.txt",
        ⟨[("out/Docs/a.txt", 0)], ["out/Docs"], [("src/a.txt", "src/a.txt")], []⟩)
    ∧ (([("out/Docs/a.txt", 0)] : FS).lookup "src/a.txt" = none) := by
  refine ⟨rfl, rfl, rfl⟩

/-- Claim C2 is refuted by the code: the destination is always
category_dir slash name with no disambiguation, so when two source files
share a basename under one category the second move silently overwrites
the first.  Applying the plan mapping Docs to a/x.txt and b/x.txt over a
filesystem holding contents 1 and 2 succeeds and leaves a single file
out/Docs/x.txt holding content 2: content 1 has been destroyed. -/
theorem apply_overwrites_on_basename_collision :
    apply_reorganization [("Docs", ["a/x.txt", "b/x.txt"])] "out"
        ⟨[("a/x.txt", 1), ("b/x.txt", 2)], [], [], []⟩ =
      Except.ok ⟨[("out/Docs/x.txt", 2)], ["out/Docs"],
        [("a/x.txt", "a/x.txt"), ("b/x.txt", "b/x.txt")], []⟩
    ∧ List.length ([("out/Docs/x.txt", 2)] : FS) = 1
    ∧ (∀ q ∈ ([("out/Docs/x.txt", 2)] : FS), q.2 ≠ 1) := by
  refine ⟨rfl, rfl, by decide⟩

/-- Claim C3 is refuted by the code: there is no per-file exception
handling in apply_reorganization, so the first failing move aborts the
whole method (the remaining files are never attempted), and because the
ledger entry is written BEFORE the move, the ledger at that point contains
exactly the failed move.  Applying the plan mapping Docs to gone.txt (a
path that does not exist, as when a file vanishes or is unreadable) and
then ok.txt aborts on gone.txt: ok.txt is never moved and the escaped
state records the unsuccessful move of gone.txt in the ledger. -/
theorem apply_aborts_on_first_failure_and_ledger_records_it :
    apply_reorganization [("Docs", ["gone.txt", "ok.txt"])] "out"
        ⟨[("ok.txt", 5)], [], [], []⟩ =
      Except.error ("FileNotFoundError: gone.txt",
        ⟨[("ok.txt", 5)], ["out/Docs"], [("gone.txt", "gone.txt")], []⟩) := rfl

/-! Theorems for the claims about the analyzer. -/

/-- Claim C4 as written is refuted by the code: on a stat failure
extract_metadata does not fail with a MetadataError (no such type exists
anywhere in the source) but catches the exception, prints it, and returns
the empty dict; and the caller does not skip the file: process_files still
appends an analysis entry for it.  Concretely, scanning a single file whose
stat is denied produces one entry, with empty metadata, rather than the
empty result the skip policy would give. -/
theorem failing_stat_file_not_skipped :
    process_files [("dir/locked.txt", Except.error "PermissionError")] =
      [{ path := "dir/locked.txt", metadata := none }]
    ∧ process_files [("dir/locked.txt", Except.error "PermissionError")] ≠ [] := by
  exact ⟨rfl, by intro h; cases h⟩

/-- Claim C4 amended: for every path whose stat fails, extract_metadata
logs and returns the empty metadata dict instead of raising, the scan
still produces an analysis entry for that file (with empty metadata)
rather than skipping it, and every listed file produces exactly one entry,
so one unreadable file never aborts the scan of the remaining files. -/
theorem failing_stat_logged_empty_and_scan_continues
    (files : List (String × Except String Stats)) (fp e : String)
    (h : (fp, Except.error e) ∈ files) :
    extract_metadata fp (Except.error e) = none
    ∧ analyze_file fp (Except.error e) ∈ process_files files
    ∧ (process_files files).length = files.length := by
  refine ⟨rfl, ?_, List.length_map files _⟩
  have : analyze_file fp (Except.error e)
      = (fun q : String × Except String Stats => analyze_file q.1 q.2)
          (fp, Except.error e) := rfl
  rw [this]
  exact List.mem_map_of_mem _ h

/-- Witness for the amended claim C4: a two-file scan where the first stat
is denied and the second succeeds. -/
theorem failing_stat_logged_empty_and_scan_continues_witness :
    extract_metadata "dir/locked.txt" (Except.error "PermissionError") = none
    ∧ analyze_file "dir/locked.txt" (Except.error "PermissionError") ∈
        process_files
          [("dir/locked.txt", Except.error "PermissionError"),
            ("dir/ok.txt", Except.ok ⟨10, 20, 30, 40⟩)]
    ∧ (process_files
          [("dir/locked.txt", Except.error "PermissionError"),
            ("dir/ok.txt", Except.ok ⟨10, 20, 30, 40⟩)]).length =
        ([("dir/locked.txt", Except.error "PermissionError"),
            ("dir/ok.txt", Except.ok ⟨10, 20, 30, 40⟩)] :
          List (String × Except String Stats)).length :=
  failing_stat_logged_empty_and_scan_continues
    [("dir/locked.txt", Except.error "PermissionError"),
      ("dir/ok.txt", Except.ok ⟨10, 20, 30, 40⟩)]
    "dir/locked.txt" "PermissionError" (List.mem_cons_self _ _)

lemma dictSet_of_not_mem {B : Type} (d : List (String × B)) (k : String) (v : B)
    (h : ∀ q ∈ d, q.1 ≠ k) : dictSet d k v = d ++ [(k, v)] := by
  have h2 : d.any (fun q => q.1 == k) = false := by
    rw [List.any_eq_false]
    intro q hq
    simpa using h q hq
  simp [dictSet, h2]

lemma classify_loop_eq (zs : List (String × ℚ)) (sem : String → ℚ) (th : ℚ) :
    ∀ (cats : List String) (acc : List (String × ℚ)),
      cats.Nodup → (∀ q ∈ acc, q.1 ∉ cats) →
      classify_loop zs sem th cats acc =
        acc ++ cats.filterMap (fun c =>
          if th ≤ combinedScore zs sem c then some (c, combinedScore zs sem c)
          else none) := by
  intro cats
  induction cats with
  | nil => intro acc _ _; simp [classify_loop]
  | cons c rest ih =>
    intro acc hnd hacc
    have hcrest : c ∉ rest := (List.nodup_cons.mp hnd).1
    have hndr : rest.Nodup := (List.nodup_cons.mp hnd).2
    by_cases hth : th ≤ combinedScore zs sem c
    · have hset : dictSet acc c (combinedScore zs sem c)
          = acc ++ [(c, combinedScore zs sem c)] :=
        dictSet_of_not_mem acc c _
          (fun q hq => fun he =>
            (hacc q hq) (he ▸ List.mem_cons_self c rest))
      have hacc2 : ∀ q ∈ acc ++ [(c, combinedScore zs sem c)], q.1 ∉ rest := by
        intro q hq
        rcases List.mem_append.mp hq with hql | hqr
        · exact fun hmem => hacc q hql (List.mem_cons_of_mem c hmem)
        · have : q = (c, combinedScore zs sem c) := by simpa using hqr
          subst this
          exact hcrest
      calc classify_loop zs sem th (c :: rest) acc
          = classify_loop zs sem th rest (dictSet acc c (combinedScore zs sem c)) := by
            simp [classify_loop, hth]
        _ = (acc ++ [(c, combinedScore zs sem c)]) ++ rest.filterMap _ := by
            rw [hset]; exact ih _ hndr hacc2
        _ = acc ++ (c :: rest).filterMap (fun c =>
              if th ≤ combinedScore zs sem c then some (c, combinedScore zs sem c)
              else none) := by
            rw [List.filterMap_cons]
            simp [hth, List.append_assoc]
    · have hacc2 : ∀ q ∈ acc, q.1 ∉ rest :=
        fun q hq hmem => hacc q hq (List.mem_cons_of_mem c hmem)
      calc classify_loop zs sem th (c :: rest) acc
          = classify_loop zs sem th rest acc := by simp [classify_loop, hth]
        _ = acc ++ rest.filterMap _ := ih _ hndr hacc2
        _ = acc ++ (c :: rest).filterMap (fun c =>
              if th ≤ combinedScore zs sem c then some (c, combinedScore zs sem c)
              else none) := by
            rw [List.filterMap_cons]
            simp [hth]

/-- Claim C6: over a duplicate-free purpose-category list (the loaded
category set), classify_file_purpose returns exactly the pairs of a
category and its combined score 0.7 times the zero-shot score plus 0.3
times the semantic score whose score is at or above the confidence
threshold; in particular a category whose combined score equals the
threshold exactly is included and one whose combined score is strictly
below it never appears. -/
theorem classify_threshold_boundary (cats : List String)
    (zs : List (String × ℚ)) (sem : String → ℚ) (th : ℚ)
    (hnd : cats.Nodup) :
    (∀ c s, (c, s) ∈ classify_file_purpose cats zs sem th ↔
      c ∈ cats ∧ s = combinedScore zs sem c ∧ th ≤ s)
    ∧ (∀ c ∈ cats, combinedScore zs sem c = th →
        (c, th) ∈ classify_file_purpose cats zs sem th)
    ∧ (∀ c s, combinedScore zs sem c < th →
        (c, s) ∉ classify_file_purpose cats zs sem th) := by
  have hmain : ∀ c s, (c, s) ∈ classify_file_purpose cats zs sem th ↔
      c ∈ cats ∧ s = combinedScore zs sem c ∧ th ≤ s := by
    intro c s
    unfold classify_file_purpose
    rw [classify_loop_eq zs sem th cats [] hnd (fun q hq => absurd hq (List.not_mem_nil q))]
    rw [List.nil_append, List.mem_filterMap]
    constructor
    · rintro ⟨a, ha, hfa⟩
      by_cases hth : th ≤ combinedScore zs sem a
      · rw [if_pos hth] at hfa
        cases Option.some.inj hfa
        exact ⟨ha, rfl, hth⟩
      · rw [if_neg hth] at hfa
        cases hfa
    · rintro ⟨hc, hs, hth⟩
      refine ⟨c, hc, ?_⟩
      subst hs
      rw [if_pos hth]
  refine ⟨hmain, ?_, ?_⟩
  · intro c hc heq
    exact (hmain c th).mpr ⟨hc, heq.symm, le_refl th⟩
  · intro c s hlt hmem
    obtain ⟨_, hs, hth⟩ := (hmain c s).mp hmem
    subst hs
    exact absurd hth (not_le.mpr hlt)

/-- Witness for claim C6: with a zero-shot score of one half for Work and a
constant semantic score of one half, the combined score of Work is exactly
the default threshold one half and Work is included, while Leisure combines
to fifteen hundredths and is excluded. -/
theorem classify_threshold_boundary_witness :
    ("Work", (1 : ℚ) / 2) ∈
      classify_file_purpose ["Work", "Leisure"] [("Work", 1 / 2)]
        (fun _ => 1 / 2) (1 / 2)
    ∧ ("Leisure", (15 : ℚ) / 100) ∉
      classify_file_purpose ["Work", "Leisure"] [("Work", 1 / 2)]
        (fun _ => 1 / 2) (1 / 2) := by
  have h := classify_threshold_boundary ["Work", "Leisure"] [("Work", 1 / 2)]
    (fun _ => 1 / 2) (1 / 2) (by decide)
  constructor
  · exact h.2.1 "Work" (by decide) (by norm_num [combinedScore, zsScore, dictSet])
  · refine h.2.2 "Leisure" ((15 : ℚ) / 100) ?_
    have hb : ("Leisure" == "Work") = false := by decide
    norm_num [combinedScore, zsScore, dictSet, List.lookup, hb]

end AiFileOrganizer
